import Mathlib

/-!
Verification of the NewsSummarizer pipeline (src/Agent.py).

The program is a linear four-stage LangGraph pipeline: a spreadsheet loader
(`read_excel_node`), a web-content fetcher (`scrape_links_node`), an LLM
summarizer (`summarize_node`) and an SMTP dispatcher (`send_email_node`),
wired `START → read_excel → scrape → summarize → email → END`.

External collaborators (pandas' spreadsheet reader, the crawl4ai crawler, the
Ollama model and the SMTP server) are modelled as oracle functions packaged in
an `Env` record; the repository's own code — the four node functions, the
prompt formatting, the truncation, the graph wiring and its traversal — is
embedded below, definition by definition.
-/

namespace NewsSummarizer

/-- An entry of `processed_articles`: `{"url": url, "text": result.markdown[:3000]}`. -/
structure Article where
  url : String
  text : String
deriving DecidableEq, Repr

/-- The `AgentState` TypedDict threaded through the graph. -/
structure AgentState where
  links : List String
  processed_articles : List Article
  summary : String
deriving DecidableEq, Repr

/-- The crawl4ai `CrawlerRunConfig` options the program sets. -/
structure CrawlerRunConfig where
  remove_overlay_elements : Bool
  word_count_threshold : Nat
deriving DecidableEq, Repr

/-- The crawl4ai result surface the program consumes: a success flag and the
extracted markdown text (crawl4ai reports network and extraction failures via
`success = False` rather than by raising). -/
structure CrawlResult where
  success : Bool
  markdown : String
deriving DecidableEq, Repr

/-- `CrawlerRunConfig(remove_overlay_elements=True, word_count_threshold=30)` (Agent.py line 50). -/
def scrapeConfig : CrawlerRunConfig :=
  { remove_overlay_elements := true, word_count_threshold := 30 }

/-- `result.markdown[:3000]` (Agent.py line 58): keep the first 3000 characters. -/
def truncText (s : String) : String := ⟨s.data.take 3000⟩

/-- The fetch loop of `scrape_links_node` (Agent.py lines 52-59): visit each
link in order with the shared crawler (modelled by `fetch`), and append
`{url, truncated markdown}` exactly when the result reports success. -/
def scrapeLinks (fetch : String → CrawlerRunConfig → CrawlResult) : List String → List Article
  | [] => []
  | url :: rest =>
    let result := fetch url scrapeConfig
    if result.success then
      { url := url, text := truncText result.markdown } :: scrapeLinks fetch rest
    else
      scrapeLinks fetch rest

/-- The errors the pipeline can abort with: loader faults and model faults. -/
inductive LoadError
  | missingFile
  | missingColumn
deriving DecidableEq, Repr

inductive PipeError
  | load (e : LoadError)
  | model (e : String)
deriving DecidableEq, Repr

/-- The plain-text message `send_email_node` builds (MIMEText body plus the
Subject/From/To headers; From and To come from `os.getenv`, hence optional). -/
structure EmailMsg where
  body : String
  subject : String
  sender : Option String
  recipient : Option String
deriving DecidableEq, Repr

/-- The external world: the filesystem's spreadsheets (a file is a map from
column name to its column of cells), the crawler, the model, the process
environment and the SMTP session (login + sendmail, taking the address and
password used for `server.login`). -/
structure Env where
  files : String → Option (String → Option (List String))
  fetch : String → CrawlerRunConfig → CrawlResult
  model : String → Nat → String → Except String String
  getenv : String → Option String
  send : Option String → Option String → EmailMsg → Except String Unit

/-- `read_excel_node` (Agent.py lines 42-44): `pd.read_excel("NewsLinks.xlsx")`
raises if the file is missing, `df['URL']` raises if the column is missing,
otherwise `df['URL'].tolist()` is stored in `links`. -/
def read_excel_node (env : Env) (s : AgentState) : Except PipeError AgentState :=
  match env.files "NewsLinks.xlsx" with
  | none => .error (.load .missingFile)
  | some df =>
    match df "URL" with
    | none => .error (.load .missingColumn)
    | some urls => .ok { s with links := urls }

/-- `scrape_links_node` as a state update (Agent.py lines 47-60). -/
def scrape_links_node (env : Env) (s : AgentState) : Except PipeError AgentState :=
  .ok { s with processed_articles := scrapeLinks env.fetch s.links }

/-- The SUMMARIZER_PROMPT template (Agent.py lines 25-39). -/
def SUMMARIZER_PROMPT : String :=
  "\nYou are a Senior AI Correspondent. Your task is to write a 250-word \"Daily Intelligence\" newsletter essay.\n\n[EDITORIAL STRUCTURE]\n1. HEADLINE: A punchy, bold title that captures the day's theme.\n2. NARRATIVE ESSAY: Write a single, flowing narrative of 3-4 paragraphs. \n3. LINK RULE: Do NOT list links at the end. You MUST embed them naturally as [Source](URL) immediately after the fact they support.\n4. HIGHLIGHTS: Use **bold text** for new model names, companies, and key technical breakthroughs.\n5. NO FLUFF: Skip the \"Based on the text\" intros and the concluding questions. Start directly with the news.\n\n[DATA TO PROCESS]\n{content}\n\n[NEWSLETTER OUTPUT]\n"

/-- One iteration of the formatting loop (Agent.py line 70): the f-string
`f"--- STORY {i + 1} ---\nSOURCE_URL: {art['url']}\nCONTENT: {art['text']}\n\n"`. -/
def storyBlock (i : Nat) (art : Article) : String :=
  "--- STORY " ++ toString (i + 1) ++ " ---\nSOURCE_URL: " ++ art.url ++
    "\nCONTENT: " ++ art.text ++ "\n\n"

/-- The `formatted_data` accumulation loop (Agent.py lines 68-70):
`for i, art in enumerate(...): formatted_data += f"--- STORY {i + 1} ---..."`. -/
def formattedData (arts : List Article) : String :=
  arts.enum.foldl (fun acc p => acc ++ storyBlock p.1 p.2) ""

/-- `ChatOllama(model="llama3.2:3b", temperature=0)` (Agent.py line 65). -/
def modelName : String := "llama3.2:3b"

def temperatureSetting : Nat := 0

/-- `ChatPromptTemplate.from_template(SUMMARIZER_PROMPT)` rendered with
`{"content": formatted_data}`: substitute the block for the placeholder. -/
def renderPrompt (content : String) : String :=
  SUMMARIZER_PROMPT.replace "{content}" content

/-- `summarize_node` (Agent.py lines 63-76): one model call on the rendered
prompt; a raised model exception propagates, otherwise the raw response text
becomes `summary`. -/
def summarize_node (env : Env) (s : AgentState) : Except PipeError AgentState :=
  match env.model modelName temperatureSetting
      (renderPrompt (formattedData s.processed_articles)) with
  | .error e => .error (.model e)
  | .ok resp => .ok { s with summary := resp }

/-- The message built by `send_email_node` (Agent.py lines 81-84). -/
def mkMsg (env : Env) (s : AgentState) : EmailMsg :=
  { body := s.summary
    subject := "🤖 Your AI Intelligence Briefing"
    sender := env.getenv "EMAIL_ADDRESS"
    recipient := env.getenv "RECIPIENT_EMAIL" }

/-- `send_email_node` (Agent.py lines 79-93): build the message, attempt the
SMTP login-and-send inside `try`, report success or failure on the console,
and return the state unchanged. The middle component records the attempted
message, the last component the console output. -/
def send_email_node (env : Env) (s : AgentState) : AgentState × List EmailMsg × List String :=
  let msg := mkMsg env s
  match env.send (env.getenv "EMAIL_ADDRESS") (env.getenv "EMAIL_PASSWORD") msg with
  | .ok _ => (s, [msg], ["Newsletter sent successfully!"])
  | .error e => (s, [msg], ["Failed to send: " ++ e])

/-- A pipeline run in flight: either an uncaught exception, or the current
state together with the accumulated send attempts and console output. -/
abbrev PipeState := Except PipeError (AgentState × List EmailMsg × List String)

/-- Lift an exception-throwing node into a step on `PipeState`: a node only
runs when no earlier stage raised. -/
def liftNode (f : Env → AgentState → Except PipeError AgentState)
    (env : Env) : PipeState → PipeState
  | .ok (s, att, logs) =>
    match f env s with
    | .ok s2 => .ok (s2, att, logs)
    | .error e => .error e
  | .error e => .error e

/-- The email node as a step on `PipeState`: it never raises, and it appends
its send attempt and console line to the run's effects. -/
def emailNode (env : Env) : PipeState → PipeState
  | .ok (s, att, logs) =>
    let r := send_email_node env s
    .ok (r.1, att ++ r.2.1, logs ++ r.2.2)
  | .error e => .error e

/-- `builder.add_node(...)` (Agent.py lines 98-101): the graph's named nodes. -/
def nodes : List (String × (Env → PipeState → PipeState)) :=
  [("read_excel", liftNode read_excel_node),
   ("scrape", liftNode scrape_links_node),
   ("summarize", liftNode summarize_node),
   ("email", emailNode)]

/-- `builder.add_edge(...)` (Agent.py lines 103-107), with LangGraph's
`START`/`END` sentinels written `__start__`/`__end__` as LangGraph names them. -/
def edges : List (String × String) :=
  [("__start__", "read_excel"),
   ("read_excel", "scrape"),
   ("scrape", "summarize"),
   ("summarize", "email"),
   ("email", "__end__")]

/-- The unique successor of a node in the edge list. -/
def nextNode (n : String) : Option String :=
  (edges.find? (fun e => e.1 == n)).map (fun e => e.2)

/-- Look a node's function up by name (the sentinels have no function). -/
def nodeFn (n : String) : Env → PipeState → PipeState :=
  match nodes.find? (fun p => p.1 == n) with
  | some p => p.2
  | none => fun _ w => w

/-- The compiled graph's traversal: from the current node, follow the unique
outgoing edge, run the successor's node function, and continue until `__end__`
(fuel bounds the walk; the graph has 5 edges so fuel 8 is ample). -/
def runFrom : Nat → String → Env → PipeState → PipeState
  | 0, _, _, w => w
  | fuel + 1, n, env, w =>
    if n == "__end__" then w
    else
      match nextNode n with
      | none => w
      | some m => runFrom fuel m env (nodeFn m env w)

/-- The node names the traversal visits, in order. -/
def visitSeq : Nat → String → List String
  | 0, _ => []
  | fuel + 1, n =>
    if n == "__end__" then []
    else
      match nextNode n with
      | none => []
      | some m => if m == "__end__" then [] else m :: visitSeq fuel m

/-- `app.ainvoke({"links": [], "processed_articles": [], "summary": ""})`:
one full traversal of the compiled graph from `START`. -/
def runPipeline (env : Env) (s0 : AgentState) : PipeState :=
  runFrom 8 "__start__" env (.ok (s0, [], []))

/-- The initial state the entry point passes (Agent.py line 112). -/
def initialState : AgentState := { links := [], processed_articles := [], summary := "" }

/-- The graph traversal is exactly the sequential composition of the four
stage functions. -/
theorem runPipeline_eq_chain (env : Env) (s0 : AgentState) :
    runPipeline env s0 =
      emailNode env (liftNode summarize_node env (liftNode scrape_links_node env
        (liftNode read_excel_node env (.ok (s0, [], []))))) := rfl

/-! ## Substring occurrence counting

`countOccs p s` counts the positions of `s` at which the pattern `p` occurs
as a contiguous substring. It is the yardstick for the claim that the
formatted block contains "exactly one STORY k marker per record". -/

/-- Number of positions of `s` at which `p` occurs as a contiguous substring. -/
def countOccs (p : List Char) : List Char → Nat
  | [] => 0
  | c :: t => (if p <+: c :: t then 1 else 0) + countOccs p t

theorem countOccs_nil (p : List Char) : countOccs p [] = 0 := rfl

theorem countOccs_cons (p : List Char) (c : Char) (t : List Char) :
    countOccs p (c :: t) = (if p <+: c :: t then 1 else 0) + countOccs p t := rfl

/-- A longer pattern occurs at no more positions than any of its prefixes. -/
theorem countOccs_le_of_prefix {q p : List Char} (h : q <+: p) :
    ∀ s, countOccs p s ≤ countOccs q s := by
  intro s
  induction s with
  | nil => exact Nat.le_refl _
  | cons c t ih =>
    rw [countOccs_cons, countOccs_cons]
    refine Nat.add_le_add ?_ ih
    by_cases hc : p <+: c :: t
    · rw [if_pos hc, if_pos (h.trans hc)]
    · rw [if_neg hc]
      exact Nat.zero_le _

/-- A pattern longer than the text never occurs. -/
theorem countOccs_eq_zero_of_lt {p s : List Char} (h : s.length < p.length) :
    countOccs p s = 0 := by
  induction s with
  | nil => rfl
  | cons c t ih =>
    rw [countOccs_cons]
    have hnp : ¬ p <+: c :: t := fun hpre => Nat.lt_irrefl _ (Nat.lt_of_le_of_lt hpre.length_le h)
    rw [if_neg hnp, ih (Nat.lt_of_le_of_lt (Nat.le_succ _) h)]

theorem take_prefix_take {p s : List Char} (n : Nat) (h : p <+: s) :
    p.take n <+: s.take n := by
  obtain ⟨t, rfl⟩ := h
  rw [List.take_append_eq_append_take]
  exact List.prefix_append _ _

/-- A prefix of `t ++ b` that is no longer than `t` is a prefix of `t`. -/
theorem prefix_of_prefix_append {p t b : List Char} (h : p <+: t ++ b)
    (hl : p.length ≤ t.length) : p <+: t :=
  (List.isPrefix_append_of_length hl).mp h

/-- A prefix of `t ++ b` that is at least as long as `t` has `t` as a prefix. -/
theorem prefix_rev_of_prefix_append {p t b : List Char} (h : p <+: t ++ b)
    (hl : t.length ≤ p.length) : t <+: p := by
  have h2 := take_prefix_take t.length h
  rw [List.take_left] at h2
  have h3 : p.take t.length = t := by
    refine h2.eq_of_length ?_
    rw [List.length_take]
    exact min_eq_left hl
  exact h3 ▸ ( List.take_prefix t.length p)

/-- If no occurrence straddles the boundary, occurrences in `a ++ b` split. -/
theorem countOccs_append_of_no_straddle {p : List Char} :
    ∀ (a : List Char) (b : List Char),
      (∀ i, i < a.length → p <+: a.drop i ++ b → p <+: a.drop i) →
      countOccs p (a ++ b) = countOccs p a + countOccs p b := by
  intro a
  induction a with
  | nil => intro b _; simp [countOccs_nil]
  | cons c t ih =>
    intro b h
    have h0 : p <+: (c :: t) ++ b → p <+: c :: t := by
      have := h 0 (Nat.succ_pos _)
      simpa using this
    have heq : (if p <+: c :: (t ++ b) then 1 else 0) = (if p <+: c :: t then 1 else 0) := by
      by_cases hc : p <+: c :: t
      · have h1 : p <+: c :: (t ++ b) := hc.trans (List.prefix_append _ _)
        rw [if_pos hc, if_pos h1]
      · have h1 : ¬ p <+: c :: (t ++ b) := fun hpre => hc (h0 hpre)
        rw [if_neg hc, if_neg h1]
    have ht : countOccs p (t ++ b) = countOccs p t + countOccs p b := by
      refine ih b ?_
      intro i hi hpre
      have := h (i + 1) (Nat.succ_lt_succ hi)
      simpa using this (by simpa using hpre)
    calc countOccs p ((c :: t) ++ b)
        = (if p <+: c :: (t ++ b) then 1 else 0) + countOccs p (t ++ b) := rfl
      _ = (if p <+: c :: t then 1 else 0) + (countOccs p t + countOccs p b) := by
          rw [heq, ht]
      _ = countOccs p (c :: t) + countOccs p b := by
          rw [countOccs_cons]; omega

/-- Occurrences split at a boundary character that the pattern avoids. -/
theorem countOccs_append_sep {p : List Char} (a : List Char) (c : Char) (b : List Char)
    (hc : c ∉ p) :
    countOccs p ((a ++ [c]) ++ b) = countOccs p (a ++ [c]) + countOccs p b := by
  refine countOccs_append_of_no_straddle _ _ ?_
  intro i hi hpre
  by_cases hl : p.length ≤ ((a ++ [c]).drop i).length
  · exact prefix_of_prefix_append hpre hl
  · exfalso
    have ht : (a ++ [c]).drop i <+: p :=
      prefix_rev_of_prefix_append hpre (Nat.le_of_not_le hl)
    have hdrop : (a ++ [c]).drop i = a.drop i ++ [c] := by
      rw [List.drop_append_eq_append_drop]
      have h0 : i - a.length = 0 := by
        simp at hi; omega
      rw [h0]
      simp
    have hcmem : c ∈ (a ++ [c]).drop i := by
      rw [hdrop]; exact List.mem_append_right _ (List.mem_singleton.mpr rfl)
    exact hc (ht.subset hcmem)

/-- The trailing newline of a line contributes no occurrence of a
newline-free pattern. -/
theorem countOccs_append_newline {p : List Char} (hp : p ≠ []) (hn : ('\n') ∉ p) :
    ∀ s, countOccs p (s ++ ['\n']) = countOccs p s := by
  intro s
  induction s with
  | nil =>
    rw [List.nil_append, countOccs_nil, countOccs_cons, countOccs_nil]
    have : ¬ p <+: ['\n'] := by
      intro h
      match p, h with
      | [], _ => exact hp rfl
      | c :: t, h =>
        have := (List.cons_prefix_cons.mp h).1
        exact hn (this ▸ List.mem_cons_self c t)
    rw [if_neg this]
  | cons c t ih =>
    have heq : (if p <+: c :: (t ++ ['\n']) then 1 else 0)
        = (if p <+: c :: t then 1 else 0) := by
      by_cases hc : p <+: c :: t
      · have h1 : p <+: c :: (t ++ ['\n']) := hc.trans (List.prefix_append _ _)
        rw [if_pos hc, if_pos h1]
      · have h1 : ¬ p <+: c :: (t ++ ['\n']) := by
          intro hpre
          have hpre2 : p <+: (c :: t) ++ ['\n'] := hpre
          by_cases hl : p.length ≤ (c :: t).length
          · exact hc (prefix_of_prefix_append hpre2 hl)
          · have hlen : p.length = ((c :: t) ++ ['\n']).length := by
              have := hpre2.length_le
              simp at this ⊢
              simp at hl
              omega
            have hfull : p = (c :: t) ++ ['\n'] := hpre2.eq_of_length hlen
            exact hn (hfull ▸ List.mem_append_right _ (List.mem_singleton.mpr rfl))
        rw [if_neg hc, if_neg h1]
    calc countOccs p ((c :: t) ++ ['\n'])
        = (if p <+: c :: (t ++ ['\n']) then 1 else 0) + countOccs p (t ++ ['\n']) := rfl
      _ = (if p <+: c :: t then 1 else 0) + countOccs p t := by rw [heq, ih]
      _ = countOccs p (c :: t) := (countOccs_cons _ _ _).symm

/-- A leading literal none of whose characters can start the pattern
contributes no occurrence. -/
theorem countOccs_skip_lit {p : List Char} (hp : p ≠ []) :
    ∀ (lit r : List Char), (∀ x ∈ lit, ¬ ([x] <+: p)) →
      countOccs p (lit ++ r) = countOccs p r := by
  intro lit
  induction lit with
  | nil => intro r _; rw [List.nil_append]
  | cons d lit ih =>
    intro r h
    have hd : ¬ p <+: d :: (lit ++ r) := by
      intro hpre
      match p, hpre with
      | [], _ => exact hp rfl
      | c :: ptl, hpre =>
        have hcd := (List.cons_prefix_cons.mp hpre).1
        refine h d (List.mem_cons_self _ _) ?_
        rw [List.cons_prefix_cons]
        exact ⟨hcd.symm, List.nil_prefix⟩
    calc countOccs p ((d :: lit) ++ r)
        = (if p <+: d :: (lit ++ r) then 1 else 0) + countOccs p (lit ++ r) := rfl
      _ = countOccs p r := by
          rw [if_neg hd, ih r (fun x hx => h x (List.mem_cons_of_mem _ hx)), Nat.zero_add]

/-- Occurrences of a newline-free pattern in a concatenation of
newline-terminated chunks are counted chunk by chunk. -/
theorem countOccs_flatten {p : List Char} (hn : ('\n') ∉ p) :
    ∀ L : List (List Char), (∀ s ∈ L, ∃ s2, s = s2 ++ ['\n']) →
      countOccs p L.flatten = (L.map (countOccs p)).sum := by
  intro L
  induction L with
  | nil => intro _; simp [countOccs_nil]
  | cons s L ih =>
    intro h
    obtain ⟨s2, rfl⟩ := h s (List.mem_cons_self _ _)
    rw [List.flatten_cons, List.map_cons, List.sum_cons,
      countOccs_append_sep s2 _ _ hn, ih (fun x hx => h x (List.mem_cons_of_mem _ hx))]

/-! ## Decimal rendering of the STORY index

`toString (i + 1)` in the f-string renders the index via `Nat.repr`. The
marker analysis needs that the rendered digits are digit characters and that
the rendering is injective. -/

/-- Fuel-free restatement of `Nat.toDigitsCore` at base 10. -/
def tdigs (n : Nat) : List Char :=
  if n < 10 then [Nat.digitChar n]
  else tdigs (n / 10) ++ [Nat.digitChar (n % 10)]
decreasing_by exact Nat.div_lt_self (by omega) (by omega)

theorem toDigitsCore_eq_tdigs :
    ∀ (f n : Nat) (ds : List Char), n < f →
      Nat.toDigitsCore 10 f n ds = tdigs n ++ ds := by
  intro f
  induction f with
  | zero => intro n ds h; omega
  | succ f ih =>
    intro n ds h
    rw [Nat.toDigitsCore]
    by_cases h0 : n / 10 = 0
    · have hn : n < 10 := by omega
      rw [if_pos h0, tdigs, if_pos hn, Nat.mod_eq_of_lt hn]
      rfl
    · have hn : ¬ n < 10 := by omega
      rw [if_neg h0, ih (n / 10) _ (by omega)]
      conv_rhs => rw [tdigs]
      rw [if_neg hn]
      simp

theorem repr_data (n : Nat) : (Nat.repr n).data = tdigs n := by
  show (Nat.toDigits 10 n).asString.data = tdigs n
  rw [Nat.toDigits, toDigitsCore_eq_tdigs (n + 1) n [] (Nat.lt_succ_self n)]
  simp [List.asString]

theorem digitChar_isDigit {m : Nat} (h : m < 10) : (Nat.digitChar m).isDigit = true := by
  interval_cases m <;> decide

theorem tdigs_digits (n : Nat) : ∀ c ∈ tdigs n, c.isDigit = true := by
  induction n using Nat.strong_induction_on with
  | _ n ih =>
    rw [tdigs]
    by_cases h : n < 10
    · rw [if_pos h]
      intro c hc
      rw [List.mem_singleton] at hc
      exact hc ▸ digitChar_isDigit h
    · rw [if_neg h]
      intro c hc
      rcases List.mem_append.mp hc with h1 | h1
      · exact ih (n / 10) (Nat.div_lt_self (by omega) (by omega)) c h1
      · rw [List.mem_singleton] at h1
        exact h1 ▸ digitChar_isDigit (Nat.mod_lt _ (by omega))

theorem tdigs_ne_nil (n : Nat) : tdigs n ≠ [] := by
  rw [tdigs]
  by_cases h : n < 10
  · rw [if_pos h]; simp
  · rw [if_neg h]; simp

/-- Decode a most-significant-first decimal digit string. -/
def digitsVal (l : List Char) : Nat :=
  l.foldl (fun a c => 10 * a + (c.toNat - 48)) 0

theorem digitsVal_append_last (a : List Char) (c : Char) :
    digitsVal (a ++ [c]) = 10 * digitsVal a + (c.toNat - 48) := by
  simp [digitsVal, List.foldl_append]

theorem digitChar_val {m : Nat} (h : m < 10) : (Nat.digitChar m).toNat - 48 = m := by
  interval_cases m <;> decide

theorem digitsVal_tdigs (n : Nat) : digitsVal (tdigs n) = n := by
  induction n using Nat.strong_induction_on with
  | _ n ih =>
    rw [tdigs]
    by_cases h : n < 10
    · rw [if_pos h]
      show digitsVal ([] ++ [Nat.digitChar n]) = n
      rw [digitsVal_append_last]
      simp [digitsVal, digitChar_val h]
    · rw [if_neg h]
      rw [digitsVal_append_last, ih (n / 10) (Nat.div_lt_self (by omega) (by omega)),
        digitChar_val (Nat.mod_lt _ (by omega))]
      omega

theorem repr_injective {m n : Nat} (h : Nat.repr m = Nat.repr n) : m = n := by
  have hd : (Nat.repr m).data = (Nat.repr n).data := by rw [h]
  rw [repr_data, repr_data] at hd
  have := congrArg digitsVal hd
  rwa [digitsVal_tdigs, digitsVal_tdigs] at this

theorem isDigit_ne_space {c : Char} (h : c.isDigit = true) : c ≠ ' ' := by
  intro e; rw [e] at h; exact absurd h (by decide)

theorem isDigit_ne_dash {c : Char} (h : c.isDigit = true) : c ≠ '-' := by
  intro e; rw [e] at h; exact absurd h (by decide)

theorem isDigit_ne_newline {c : Char} (h : c.isDigit = true) : c ≠ '\n' := by
  intro e; rw [e] at h; exact absurd h (by decide)

/-! ## Character-level view of the formatted block -/

/-- The characters of the literal "--- STORY " that opens every marker. -/
def PSTORY : List Char := ['-', '-', '-', ' ', 'S', 'T', 'O', 'R', 'Y', ' ']

/-- The characters of the literal " ---" that closes every marker. -/
def sTAIL : List Char := [' ', '-', '-', '-']

/-- The characters of the literal "SOURCE_URL: ". -/
def sSRC : List Char := ['S', 'O', 'U', 'R', 'C', 'E', '_', 'U', 'R', 'L', ':', ' ']

/-- The characters of the literal "CONTENT: ". -/
def sCNT : List Char := ['C', 'O', 'N', 'T', 'E', 'N', 'T', ':', ' ']

/-- The characters of the marker `--- STORY {k} ---`. -/
def markerChars (k : Nat) : List Char := PSTORY ++ ((Nat.repr k).data ++ sTAIL)

/-- The characters of the block `storyBlock` emits for the record numbered `k`. -/
def blockChars (k : Nat) (a : Article) : List Char :=
  (PSTORY ++ ((Nat.repr k).data ++ (sTAIL ++ ['\n']))) ++
    ((sSRC ++ (a.url.data ++ ['\n'])) ++ ((sCNT ++ (a.text.data ++ ['\n'])) ++ ['\n']))

/-- The blocks of a record list, numbered consecutively from `k`. -/
def blocksFrom : Nat → List Article → List (List Char)
  | _, [] => []
  | k, a :: rest => blockChars k a :: blocksFrom (k + 1) rest

theorem toString_nat_eq_repr (n : Nat) : toString n = Nat.repr n := rfl

theorem storyBlock_data (i : Nat) (a : Article) :
    (storyBlock i a).data = blockChars (i + 1) a := by
  have h1 : "--- STORY ".data = PSTORY := by decide
  have h2 : " ---\nSOURCE_URL: ".data = sTAIL ++ (['\n'] ++ sSRC) := by decide
  have h3 : "\nCONTENT: ".data = ['\n'] ++ sCNT := by decide
  have h4 : "\n\n".data = ['\n'] ++ ['\n'] := by decide
  simp only [storyBlock, String.data_append, toString_nat_eq_repr, h1, h2, h3, h4, blockChars]
  simp [PSTORY, sTAIL, sSRC, sCNT, List.append_assoc]

theorem foldl_storyBlock (arts : List Article) :
    ∀ (i0 : Nat) (acc : String),
      ((List.enumFrom i0 arts).foldl (fun acc p => acc ++ storyBlock p.1 p.2) acc).data
        = acc.data ++ (blocksFrom (i0 + 1) arts).flatten := by
  induction arts with
  | nil => intro i0 acc; simp [List.enumFrom, blocksFrom]
  | cons a rest ih =>
    intro i0 acc
    show ((List.enumFrom (i0 + 1) rest).foldl (fun acc p => acc ++ storyBlock p.1 p.2)
        (acc ++ storyBlock i0 a)).data = acc.data ++ (blocksFrom (i0 + 1) (a :: rest)).flatten
    rw [ih (i0 + 1) (acc ++ storyBlock i0 a)]
    show (acc ++ storyBlock i0 a).data ++ (blocksFrom (i0 + 1 + 1) rest).flatten
        = acc.data ++ (blockChars (i0 + 1) a :: blocksFrom (i0 + 1 + 1) rest).flatten
    rw [String.data_append, storyBlock_data, List.flatten_cons, List.append_assoc]

/-- The formatted block is the in-order concatenation of the per-record
blocks, numbered consecutively from 1. -/
theorem formattedData_data (arts : List Article) :
    (formattedData arts).data = (blocksFrom 1 arts).flatten := by
  have h := foldl_storyBlock arts 0 ""
  simpa [formattedData, List.enum] using h

theorem blocksFrom_terminated :
    ∀ (arts : List Article) (k : Nat), ∀ b ∈ blocksFrom k arts, ∃ b2, b = b2 ++ ['\n'] := by
  intro arts
  induction arts with
  | nil => intro k b hb; simp [blocksFrom] at hb
  | cons a rest ih =>
    intro k b hb
    rcases List.mem_cons.mp hb with h | h
    · subst h
      refine ⟨(PSTORY ++ ((Nat.repr k).data ++ (sTAIL ++ ['\n']))) ++
        ((sSRC ++ (a.url.data ++ ['\n'])) ++ (sCNT ++ (a.text.data ++ ['\n']))), ?_⟩
      simp [blockChars, List.append_assoc]
    · exact ih (k + 1) b h

/-- Two distinct digit runs followed by a space never align: one rendered
index cannot be mistaken for another inside a marker. -/
theorem digit_run_not_prefix {dk dj r1 r2 : List Char}
    (hk : ∀ c ∈ dk, c.isDigit = true) (hj : ∀ c ∈ dj, c.isDigit = true)
    (hne : dk ≠ dj) : ¬ (dk ++ (' ' :: r1) <+: dj ++ (' ' :: r2)) := by
  intro h
  rcases Nat.lt_trichotomy dk.length dj.length with hl | hl | hl
  · obtain ⟨t, ht⟩ := h
    have hL : dk.length < (dk ++ (' ' :: r1)).length := by simp
    have hR : dk.length < (dj ++ (' ' :: r2)).length := by simp; omega
    have hchar : (dk ++ (' ' :: r1))[dk.length] = (dj ++ (' ' :: r2))[dk.length] := by
      have hstep : ((dk ++ (' ' :: r1)) ++ t)[dk.length] = (dj ++ (' ' :: r2))[dk.length] :=
        List.getElem_of_eq ht _
      rw [← hstep]
      exact (List.getElem_append_left hL).symm
    have hleft : (dk ++ (' ' :: r1))[dk.length] = ' ' := by
      rw [List.getElem_append_right (Nat.le_refl _)]
      simp
    have hright : (dj ++ (' ' :: r2))[dk.length] = dj[dk.length] :=
      List.getElem_append_left hl
    have hdig : (dj[dk.length]).isDigit = true := hj _ (List.getElem_mem hl)
    rw [hleft, hright] at hchar
    exact isDigit_ne_space hdig hchar.symm
  · refine hne ?_
    have h2 := take_prefix_take dk.length h
    rw [List.take_left] at h2
    rw [hl, List.take_left] at h2
    exact h2.eq_of_length (by rw [hl])
  · obtain ⟨t, ht⟩ := h
    have hL : dj.length < (dk ++ (' ' :: r1)).length := by simp; omega
    have hR : dj.length < (dj ++ (' ' :: r2)).length := by simp
    have hchar : (dk ++ (' ' :: r1))[dj.length] = (dj ++ (' ' :: r2))[dj.length] := by
      have hT : dj.length < ((dk ++ (' ' :: r1)) ++ t).length := by simp; omega
      have hstep : ((dk ++ (' ' :: r1)) ++ t)[dj.length] = (dj ++ (' ' :: r2))[dj.length] :=
        List.getElem_of_eq ht _
      rw [← hstep]
      exact (List.getElem_append_left hL).symm
    have hleft : (dk ++ (' ' :: r1))[dj.length] = dk[dj.length] :=
      List.getElem_append_left hl
    have hright : (dj ++ (' ' :: r2))[dj.length] = ' ' := by
      rw [List.getElem_append_right (Nat.le_refl _)]
      simp
    have hdig : (dk[dj.length]).isDigit = true := hk _ (List.getElem_mem hl)
    rw [hleft, hright] at hchar
    exact isDigit_ne_space hdig hchar

/-- Peeling the ten characters of "--- STORY " off the front of a block: a
pattern that itself starts with "--- STORY " can only match at position 0
there, so the count reduces to the position-0 indicator plus the count in the
remainder. -/
theorem countOccs_marker_head (z dj tl : List Char) :
    countOccs (PSTORY ++ z) (PSTORY ++ (dj ++ tl)) =
      (if PSTORY ++ z <+: PSTORY ++ (dj ++ tl) then 1 else 0)
        + countOccs (PSTORY ++ z) (dj ++ tl) := by
  have h1 : ¬ (PSTORY ++ z <+:
      '-' :: ('-' :: (' ' :: ('S' :: ('T' :: ('O' :: ('R' :: ('Y' :: (' ' :: (dj ++ tl)))))))))) := by
    intro hpre
    have h3 : (['-', '-', '-'] : List Char) <+: ['-', '-', ' '] := take_prefix_take 3 hpre
    exact absurd h3 (by decide)
  have h2 : ¬ (PSTORY ++ z <+:
      '-' :: (' ' :: ('S' :: ('T' :: ('O' :: ('R' :: ('Y' :: (' ' :: (dj ++ tl))))))))) := by
    intro hpre
    have h3 : (['-', '-'] : List Char) <+: ['-', ' '] := take_prefix_take 2 hpre
    exact absurd h3 (by decide)
  have h3 : ¬ (PSTORY ++ z <+:
      ' ' :: ('S' :: ('T' :: ('O' :: ('R' :: ('Y' :: (' ' :: (dj ++ tl)))))))) := by
    intro hpre
    have h4 : (['-'] : List Char) <+: [' '] := take_prefix_take 1 hpre
    exact absurd h4 (by decide)
  have h4 : ¬ (PSTORY ++ z <+:
      'S' :: ('T' :: ('O' :: ('R' :: ('Y' :: (' ' :: (dj ++ tl))))))) := by
    intro hpre
    have h5 : (['-'] : List Char) <+: ['S'] := take_prefix_take 1 hpre
    exact absurd h5 (by decide)
  have h5 : ¬ (PSTORY ++ z <+: 'T' :: ('O' :: ('R' :: ('Y' :: (' ' :: (dj ++ tl)))))) := by
    intro hpre
    have h6 : (['-'] : List Char) <+: ['T'] := take_prefix_take 1 hpre
    exact absurd h6 (by decide)
  have h6 : ¬ (PSTORY ++ z <+: 'O' :: ('R' :: ('Y' :: (' ' :: (dj ++ tl))))) := by
    intro hpre
    have h7 : (['-'] : List Char) <+: ['O'] := take_prefix_take 1 hpre
    exact absurd h7 (by decide)
  have h7 : ¬ (PSTORY ++ z <+: 'R' :: ('Y' :: (' ' :: (dj ++ tl)))) := by
    intro hpre
    have h8 : (['-'] : List Char) <+: ['R'] := take_prefix_take 1 hpre
    exact absurd h8 (by decide)
  have h8 : ¬ (PSTORY ++ z <+: 'Y' :: (' ' :: (dj ++ tl))) := by
    intro hpre
    have h9 : (['-'] : List Char) <+: ['Y'] := take_prefix_take 1 hpre
    exact absurd h9 (by decide)
  have h9 : ¬ (PSTORY ++ z <+: ' ' :: (dj ++ tl)) := by
    intro hpre
    have h10 : (['-'] : List Char) <+: [' '] := take_prefix_take 1 hpre
    exact absurd h10 (by decide)
  have e : PSTORY ++ (dj ++ tl) =
      '-' :: ('-' :: ('-' :: (' ' :: ('S' :: ('T' :: ('O' :: ('R' :: ('Y' ::
        (' ' :: (dj ++ tl)))))))))) := rfl
  rw [e]
  rw [countOccs_cons, countOccs_cons, countOccs_cons, countOccs_cons, countOccs_cons,
    countOccs_cons, countOccs_cons, countOccs_cons, countOccs_cons, countOccs_cons]
  rw [if_neg h1, if_neg h2, if_neg h3, if_neg h4, if_neg h5, if_neg h6, if_neg h7,
    if_neg h8, if_neg h9]
  omega

/-- Occurrence count of a "--- STORY "-headed pattern in one block: only the
position-0 marker can match, provided the record's url and text are free of
"--- STORY ". -/
theorem countOccs_block {p z : List Char} (hpz : p = PSTORY ++ z)
    (k : Nat) (a : Article) (hnl : ('\n') ∉ p)
    (hu : countOccs p a.url.data = 0) (htx : countOccs p a.text.data = 0) :
    countOccs p (blockChars k a) =
      if p <+: PSTORY ++ ((Nat.repr k).data ++ (sTAIL ++ ['\n'])) then 1 else 0 := by
  subst hpz
  have hne : PSTORY ++ z ≠ [] := by simp [PSTORY]
  have hlen : 10 ≤ (PSTORY ++ z).length := by simp [PSTORY]
  have hdash : ∀ x, ([x] <+: PSTORY ++ z) → x = '-' := by
    intro x hpre
    have h2 : [x] <+: '-' :: (['-', '-', ' ', 'S', 'T', 'O', 'R', 'Y', ' '] ++ z) := hpre
    exact (List.cons_prefix_cons.mp h2).1
  have e1 : blockChars k a = ((PSTORY ++ ((Nat.repr k).data ++ sTAIL)) ++ ['\n']) ++
      ((sSRC ++ (a.url.data ++ ['\n'])) ++ ((sCNT ++ (a.text.data ++ ['\n'])) ++ ['\n'])) := by
    simp [blockChars, List.append_assoc]
  rw [e1, countOccs_append_sep _ _ _ hnl]
  have e2 : sSRC ++ (a.url.data ++ ['\n']) = (sSRC ++ a.url.data) ++ ['\n'] := by
    simp [List.append_assoc]
  rw [e2, countOccs_append_sep _ _ _ hnl]
  have e3 : sCNT ++ (a.text.data ++ ['\n']) = (sCNT ++ a.text.data) ++ ['\n'] := by
    simp [List.append_assoc]
  rw [e3, countOccs_append_sep _ _ _ hnl]
  have t4 : countOccs (PSTORY ++ z) ['\n'] = 0 :=
    countOccs_eq_zero_of_lt (by simp [PSTORY])
  have t2 : countOccs (PSTORY ++ z) ((sSRC ++ a.url.data) ++ ['\n']) = 0 := by
    rw [countOccs_append_newline hne hnl]
    rw [countOccs_skip_lit hne sSRC a.url.data ?_]
    · exact hu
    · intro x hx hpre
      have hx1 := hdash x hpre
      rw [hx1] at hx
      exact absurd hx (by decide)
  have t3 : countOccs (PSTORY ++ z) ((sCNT ++ a.text.data) ++ ['\n']) = 0 := by
    rw [countOccs_append_newline hne hnl]
    rw [countOccs_skip_lit hne sCNT a.text.data ?_]
    · exact htx
    · intro x hx hpre
      have hx1 := hdash x hpre
      rw [hx1] at hx
      exact absurd hx (by decide)
  have e4 : (PSTORY ++ ((Nat.repr k).data ++ sTAIL)) ++ ['\n']
      = PSTORY ++ ((Nat.repr k).data ++ (sTAIL ++ ['\n'])) := by
    simp [List.append_assoc]
  have t1 : countOccs (PSTORY ++ z) ((PSTORY ++ ((Nat.repr k).data ++ sTAIL)) ++ ['\n'])
      = if PSTORY ++ z <+: PSTORY ++ ((Nat.repr k).data ++ (sTAIL ++ ['\n'])) then 1 else 0 := by
    rw [e4, countOccs_marker_head]
    have hrest : countOccs (PSTORY ++ z) ((Nat.repr k).data ++ (sTAIL ++ ['\n'])) = 0 := by
      rw [countOccs_skip_lit hne _ _ ?_]
      · exact countOccs_eq_zero_of_lt (by simp [PSTORY, sTAIL])
      · intro x hx hpre
        have hx1 := hdash x hpre
        have hdig : x.isDigit = true := by
          rw [repr_data] at hx
          exact tdigs_digits k x hx
        exact isDigit_ne_dash hdig hx1
    rw [hrest]
    omega
  rw [t1, t2, t3, t4]
  omega

/-- "--- STORY " occurs exactly once in each block of a clean record. -/
theorem countOccs_block_PSTORY (k : Nat) (a : Article)
    (hu : countOccs PSTORY a.url.data = 0) (htx : countOccs PSTORY a.text.data = 0) :
    countOccs PSTORY (blockChars k a) = 1 := by
  have h := countOccs_block (p := PSTORY) (z := []) (by simp) k a (by decide) hu htx
  rw [h, if_pos]
  show PSTORY <+: PSTORY ++ ((Nat.repr k).data ++ (sTAIL ++ ['\n']))
  exact List.prefix_append _ _

/-- The full marker `--- STORY m ---` occurs in the block numbered `k`
exactly when `m = k`, for clean records. -/
theorem countOccs_block_marker (m k : Nat) (a : Article)
    (hu : countOccs PSTORY a.url.data = 0) (htx : countOccs PSTORY a.text.data = 0) :
    countOccs (markerChars m) (blockChars k a) = if m = k then 1 else 0 := by
  have hpm : PSTORY <+: markerChars m := List.prefix_append _ _
  have hu2 : countOccs (markerChars m) a.url.data = 0 :=
    Nat.le_zero.mp (hu ▸ countOccs_le_of_prefix hpm a.url.data)
  have ht2 : countOccs (markerChars m) a.text.data = 0 :=
    Nat.le_zero.mp (htx ▸ countOccs_le_of_prefix hpm a.text.data)
  have hnl : ('\n') ∉ markerChars m := by
    intro hmem
    simp only [markerChars, List.mem_append] at hmem
    rcases hmem with h | h | h
    · exact absurd h (by decide)
    · rw [repr_data] at h
      exact isDigit_ne_newline (tdigs_digits m _ h) rfl
    · exact absurd h (by decide)
  have h := countOccs_block (p := markerChars m)
    (z := (Nat.repr m).data ++ sTAIL) rfl k a hnl hu2 ht2
  rw [h]
  by_cases hmk : m = k
  · subst hmk
    rw [if_pos rfl, if_pos]
    show PSTORY ++ ((Nat.repr m).data ++ sTAIL)
      <+: PSTORY ++ ((Nat.repr m).data ++ (sTAIL ++ ['\n']))
    rw [List.prefix_append_right_inj, List.prefix_append_right_inj]
    exact List.prefix_append _ _
  · rw [if_neg hmk, if_neg]
    show ¬ (PSTORY ++ ((Nat.repr m).data ++ sTAIL)
      <+: PSTORY ++ ((Nat.repr k).data ++ (sTAIL ++ ['\n'])))
    rw [List.prefix_append_right_inj]
    have hdm : ∀ c ∈ (Nat.repr m).data, c.isDigit = true := by
      rw [repr_data]; exact tdigs_digits m
    have hdk : ∀ c ∈ (Nat.repr k).data, c.isDigit = true := by
      rw [repr_data]; exact tdigs_digits k
    have hde : (Nat.repr m).data ≠ (Nat.repr k).data := by
      intro hde
      have h5 : Nat.repr m = Nat.repr k := congrArg String.mk hde
      exact hmk (repr_injective h5)
    exact digit_run_not_prefix hdm hdk hde

/-- Summing the "--- STORY " counts over the blocks of `arts` gives one per
record. -/
theorem sum_blocks_PSTORY (arts : List Article)
    (hclean : ∀ a ∈ arts,
      countOccs PSTORY a.url.data = 0 ∧ countOccs PSTORY a.text.data = 0) :
    ∀ k, ((blocksFrom k arts).map (countOccs PSTORY)).sum = arts.length := by
  induction arts with
  | nil => intro k; simp [blocksFrom]
  | cons a rest ih =>
    intro k
    have ha := hclean a (List.mem_cons_self _ _)
    rw [blocksFrom, List.map_cons, List.sum_cons,
      countOccs_block_PSTORY k a ha.1 ha.2,
      ih (fun x hx => hclean x (List.mem_cons_of_mem _ hx)) (k + 1)]
    simp only [List.length_cons]
    omega

/-- Summing the marker-`m` counts over the blocks numbered from `k`: one
occurrence exactly when `m` lies in the numbering range. -/
theorem sum_blocks_marker (m : Nat) (arts : List Article)
    (hclean : ∀ a ∈ arts,
      countOccs PSTORY a.url.data = 0 ∧ countOccs PSTORY a.text.data = 0) :
    ∀ k, ((blocksFrom k arts).map (countOccs (markerChars m))).sum
      = if k ≤ m ∧ m < k + arts.length then 1 else 0 := by
  induction arts with
  | nil =>
    intro k
    rw [blocksFrom]
    simp only [List.map_nil, List.sum_nil, List.length_nil]
    rw [if_neg (by omega)]
  | cons a rest ih =>
    intro k
    have ha := hclean a (List.mem_cons_self _ _)
    rw [blocksFrom, List.map_cons, List.sum_cons,
      countOccs_block_marker m k a ha.1 ha.2,
      ih (fun x hx => hclean x (List.mem_cons_of_mem _ hx)) (k + 1)]
    simp only [List.length_cons]
    split_ifs <;> omega

theorem newline_not_mem_PSTORY : ('\n') ∉ PSTORY := by decide

theorem newline_not_mem_marker (m : Nat) : ('\n') ∉ markerChars m := by
  intro hmem
  simp only [markerChars, List.mem_append] at hmem
  rcases hmem with h | h | h
  · exact absurd h (by decide)
  · rw [repr_data] at h
    exact isDigit_ne_newline (tdigs_digits m _ h) rfl
  · exact absurd h (by decide)

/-- Total "--- STORY " count in the formatted block: one per record. -/
theorem countOccs_formatted_PSTORY (arts : List Article)
    (hclean : ∀ a ∈ arts,
      countOccs PSTORY a.url.data = 0 ∧ countOccs PSTORY a.text.data = 0) :
    countOccs PSTORY (formattedData arts).data = arts.length := by
  rw [formattedData_data,
    countOccs_flatten newline_not_mem_PSTORY _ (blocksFrom_terminated arts 1),
    sum_blocks_PSTORY arts hclean 1]

/-- Total count of the marker `--- STORY m ---` in the formatted block: one,
whenever `1 ≤ m ≤ number of records`. -/
theorem countOccs_formatted_marker (arts : List Article) (m : Nat)
    (hclean : ∀ a ∈ arts,
      countOccs PSTORY a.url.data = 0 ∧ countOccs PSTORY a.text.data = 0)
    (h1 : 1 ≤ m) (h2 : m ≤ arts.length) :
    countOccs (markerChars m) (formattedData arts).data = 1 := by
  rw [formattedData_data,
    countOccs_flatten (newline_not_mem_marker m) _ (blocksFrom_terminated arts 1),
    sum_blocks_marker m arts hclean 1]
  rw [if_pos (by omega)]

/-! ## Helper facts about the fetch loop -/

theorem scrapeLinks_append (fetch : String → CrawlerRunConfig → CrawlResult) :
    ∀ a b : List String,
      scrapeLinks fetch (a ++ b) = scrapeLinks fetch a ++ scrapeLinks fetch b := by
  intro a b
  induction a with
  | nil => simp [scrapeLinks]
  | cons u rest ih =>
    by_cases h : (fetch u scrapeConfig).success = true
    · show scrapeLinks fetch (u :: (rest ++ b)) = scrapeLinks fetch (u :: rest) ++ _
      rw [scrapeLinks, scrapeLinks]
      simp only [h, if_true, ih, List.cons_append]
    · show scrapeLinks fetch (u :: (rest ++ b))
          = scrapeLinks fetch (u :: rest) ++ scrapeLinks fetch b
      rw [show scrapeLinks fetch (u :: (rest ++ b)) = scrapeLinks fetch (rest ++ b) from by
        simp [scrapeLinks, h]]
      rw [show scrapeLinks fetch (u :: rest) = scrapeLinks fetch rest from by
        simp [scrapeLinks, h]]
      exact ih

theorem scrapeLinks_nil_of_fail (fetch : String → CrawlerRunConfig → CrawlResult)
    (links : List String) (h : ∀ u ∈ links, (fetch u scrapeConfig).success = false) :
    scrapeLinks fetch links = [] := by
  induction links with
  | nil => rfl
  | cons u rest ih =>
    have hu := h u (List.mem_cons_self _ _)
    rw [show scrapeLinks fetch (u :: rest) = scrapeLinks fetch rest from by
      simp [scrapeLinks, hu]]
    exact ih (fun x hx => h x (List.mem_cons_of_mem _ hx))

/-! ## The claims -/

/-- Claim C1: for every input list of URLs, the Fetcher's output has length at
most the input's, every output record's `url` is an element of the input, and
the output urls form a subsequence of the input (relative order preserved). -/
theorem claim_fetcher_subsequence (fetch : String → CrawlerRunConfig → CrawlResult)
    (links : List String) :
    (scrapeLinks fetch links).length ≤ links.length ∧
    ((scrapeLinks fetch links).map Article.url).Sublist links ∧
    ∀ a ∈ scrapeLinks fetch links, a.url ∈ links := by
  induction links with
  | nil =>
    refine ⟨Nat.le_refl _, List.Sublist.refl _, ?_⟩
    intro a ha
    simp [scrapeLinks] at ha
  | cons u rest ih =>
    by_cases h : (fetch u scrapeConfig).success = true
    · have e : scrapeLinks fetch (u :: rest)
          = { url := u, text := truncText (fetch u scrapeConfig).markdown }
            :: scrapeLinks fetch rest := by
        simp [scrapeLinks, h]
      rw [e]
      refine ⟨Nat.succ_le_succ ih.1, ?_, ?_⟩
      · simpa using List.Sublist.cons₂ u ih.2.1
      · intro a ha
        rcases List.mem_cons.mp ha with h1 | h1
        · subst h1
          exact List.mem_cons_self _ _
        · exact List.mem_cons_of_mem _ (ih.2.2 a h1)
    · have e : scrapeLinks fetch (u :: rest) = scrapeLinks fetch rest := by
        simp [scrapeLinks, h]
      rw [e]
      exact ⟨Nat.le_succ_of_le ih.1, ih.2.1.cons u,
        fun a ha => List.mem_cons_of_mem _ (ih.2.2 a ha)⟩

/-- Witness for C1 at a concrete fetcher and link list. -/
def fetchW : String → CrawlerRunConfig → CrawlResult := fun url _ =>
  if url = "https://ok" then { success := true, markdown := "body" }
  else { success := false, markdown := "" }

theorem claim_fetcher_subsequence_witness :
    ({ url := "https://ok", text := truncText "body" } : Article)
        ∈ scrapeLinks fetchW ["https://bad", "https://ok"] ∧
    "https://ok" ∈ (["https://bad", "https://ok"] : List String) :=
  ⟨by decide,
   (claim_fetcher_subsequence fetchW ["https://bad", "https://ok"]).2.2
     { url := "https://ok", text := truncText "body" } (by decide)⟩

/-- Claim C2: a URL whose fetch fails is silently skipped — it contributes no
record (error or otherwise), and the loop continues over the remaining URLs,
whose results are exactly what they would have been without the failing URL. -/
theorem claim_fetch_failure_skipped (fetch : String → CrawlerRunConfig → CrawlResult)
    (pre post : List String) (u : String)
    (h : (fetch u scrapeConfig).success = false) :
    scrapeLinks fetch [u] = [] ∧
    scrapeLinks fetch (pre ++ u :: post)
      = scrapeLinks fetch pre ++ scrapeLinks fetch post := by
  have h1 : scrapeLinks fetch [u] = [] := by simp [scrapeLinks, h]
  refine ⟨h1, ?_⟩
  have e : pre ++ u :: post = pre ++ ([u] ++ post) := by simp
  rw [e, scrapeLinks_append, scrapeLinks_append, h1]
  simp

theorem claim_fetch_failure_skipped_witness :
    (fetchW "https://bad" scrapeConfig).success = false ∧
    (scrapeLinks fetchW ["https://bad"] = [] ∧
      scrapeLinks fetchW (["https://ok"] ++ "https://bad" :: ["https://ok"])
        = scrapeLinks fetchW ["https://ok"] ++ scrapeLinks fetchW ["https://ok"]) :=
  ⟨by decide,
   claim_fetch_failure_skipped fetchW ["https://ok"] ["https://ok"] "https://bad" (by decide)⟩

/-- Claim C3: truncation stores exactly 3000 characters (a prefix of the
original) when the text is longer than the cap, stores shorter text
unchanged, and is idempotent. -/
theorem claim_truncation_law (s : String) :
    (3000 < s.length → (truncText s).length = 3000 ∧ (truncText s).data <+: s.data) ∧
    (s.length ≤ 3000 → truncText s = s) ∧
    truncText (truncText s) = truncText s := by
  refine ⟨?_, ?_, ?_⟩
  · intro h
    constructor
    · show (s.data.take 3000).length = 3000
      rw [List.length_take, String.length_data]
      exact min_eq_left (by omega)
    · exact List.take_prefix 3000 s.data
  · intro h
    show (⟨s.data.take 3000⟩ : String) = s
    have e : s.data.take 3000 = s.data :=
      List.take_of_length_le (by rw [String.length_data]; omega)
    rw [e]
  · show (⟨(s.data.take 3000).take 3000⟩ : String) = ⟨s.data.take 3000⟩
    rw [List.take_take, min_self]

theorem claim_truncation_law_witness :
    3000 < (String.mk (List.replicate 3001 'a')).length ∧
    (truncText (String.mk (List.replicate 3001 'a'))).length = 3000 ∧
    (truncText (String.mk (List.replicate 3001 'a'))).data
      <+: (String.mk (List.replicate 3001 'a')).data ∧
    ("hi" : String).length ≤ 3000 ∧ truncText "hi" = "hi" := by
  have hlen : (String.mk (List.replicate 3001 'a')).length = 3001 := by
    show (List.replicate 3001 'a').length = 3001
    rw [List.length_replicate]
  have h1 := (claim_truncation_law (String.mk (List.replicate 3001 'a'))).1
    (by rw [hlen]; omega)
  have h2 := (claim_truncation_law "hi").2.1 (by decide)
  exact ⟨by rw [hlen]; omega, h1.1, h1.2, by decide, h2⟩

/-- Claim C10: every stored article text is capped at exactly 3000
characters (the cap is attained by long enough inputs), and the crawler
configuration passes a minimum word-count threshold of exactly 30 with
overlay removal enabled. -/
theorem claim_cap_and_threshold :
    scrapeConfig.word_count_threshold = 30 ∧
    scrapeConfig.remove_overlay_elements = true ∧
    (∀ (fetch : String → CrawlerRunConfig → CrawlResult) (links : List String),
      ∀ a ∈ scrapeLinks fetch links, a.text.length ≤ 3000) ∧
    (∀ s : String, 3000 ≤ s.length → (truncText s).length = 3000) := by
  refine ⟨rfl, rfl, ?_, ?_⟩
  · intro fetch links
    induction links with
    | nil =>
      intro a ha
      simp [scrapeLinks] at ha
    | cons u rest ih =>
      intro a ha
      by_cases h : (fetch u scrapeConfig).success = true
      · have e : scrapeLinks fetch (u :: rest)
            = { url := u, text := truncText (fetch u scrapeConfig).markdown }
              :: scrapeLinks fetch rest := by
          simp [scrapeLinks, h]
        rw [e] at ha
        rcases List.mem_cons.mp ha with h1 | h1
        · rw [h1]
          show ((fetch u scrapeConfig).markdown.data.take 3000).length ≤ 3000
          rw [List.length_take]
          exact min_le_left _ _
        · exact ih a h1
      · have e : scrapeLinks fetch (u :: rest) = scrapeLinks fetch rest := by
          simp [scrapeLinks, h]
        rw [e] at ha
        exact ih a ha
  · intro s h
    show (s.data.take 3000).length = 3000
    rw [List.length_take, String.length_data]
    exact min_eq_left h

/-- Concrete always-succeeding fetcher for the C10 witness. -/
def fetchOK : String → CrawlerRunConfig → CrawlResult := fun _ _ =>
  { success := true, markdown := "hello" }

theorem claim_cap_and_threshold_witness :
    ({ url := "u", text := truncText "hello" } : Article) ∈ scrapeLinks fetchOK ["u"] ∧
    ({ url := "u", text := truncText "hello" } : Article).text.length ≤ 3000 ∧
    3000 ≤ (String.mk (List.replicate 3000 'a')).length ∧
    (truncText (String.mk (List.replicate 3000 'a'))).length = 3000 := by
  have hlen : (String.mk (List.replicate 3000 'a')).length = 3000 := by
    show (List.replicate 3000 'a').length = 3000
    rw [List.length_replicate]
  refine ⟨by decide, ?_, by rw [hlen], ?_⟩
  · exact claim_cap_and_threshold.2.2.1 fetchOK ["u"] _ (by decide)
  · exact claim_cap_and_threshold.2.2.2 _ (by rw [hlen])

/-- Claim C4 as stated is false on the code: taking "contains exactly one
STORY k marker" as the substring-occurrence count of `--- STORY k ---`, a
record whose own text contains the marker string makes the count exceed one.
Concretely, for the single record `{url := "u", text := "--- STORY 1 ---"}`
the marker `--- STORY 1 ---` occurs twice in the formatted block. -/
theorem claim_story_markers_counterexample :
    ¬ (∀ (arts : List Article) (k : Nat), 1 ≤ k → k ≤ arts.length →
        countOccs (markerChars k) (formattedData arts).data = 1) := by
  intro h
  have h2 := h [{ url := "u", text := "--- STORY 1 ---" }] 1 (by decide) (by decide)
  have h3 : countOccs (markerChars 1)
      (formattedData [{ url := "u", text := "--- STORY 1 ---" }]).data = 2 := by decide
  rw [h3] at h2
  exact absurd h2 (by decide)

/-- Claim C4, amended: provided no record's url or text itself contains the
substring "--- STORY ", the formatted block is exactly the concatenation, in
input order, of the per-record sections `--- STORY k ---`, `SOURCE_URL:` the
record's url, `CONTENT:` the record's text (k counted from 1), the string
"--- STORY " occurs exactly once per record, and each marker
`--- STORY k ---` with `1 ≤ k ≤ N` occurs exactly once. -/
theorem claim_story_markers_amended (arts : List Article)
    (hclean : ∀ a ∈ arts,
      countOccs PSTORY a.url.data = 0 ∧ countOccs PSTORY a.text.data = 0) :
    (formattedData arts).data = (blocksFrom 1 arts).flatten ∧
    countOccs PSTORY (formattedData arts).data = arts.length ∧
    ∀ k, 1 ≤ k → k ≤ arts.length →
      countOccs (markerChars k) (formattedData arts).data = 1 :=
  ⟨formattedData_data arts, countOccs_formatted_PSTORY arts hclean,
   fun k h1 h2 => countOccs_formatted_marker arts k hclean h1 h2⟩

theorem claim_story_markers_amended_witness :
    (∀ a ∈ ([{ url := "http://a", text := "alpha" },
             { url := "http://b", text := "beta" }] : List Article),
      countOccs PSTORY a.url.data = 0 ∧ countOccs PSTORY a.text.data = 0) ∧
    ((formattedData [{ url := "http://a", text := "alpha" },
        { url := "http://b", text := "beta" }]).data
      = (blocksFrom 1 [{ url := "http://a", text := "alpha" },
          { url := "http://b", text := "beta" }]).flatten ∧
    countOccs PSTORY (formattedData [{ url := "http://a", text := "alpha" },
        { url := "http://b", text := "beta" }]).data = 2 ∧
    ∀ k, 1 ≤ k → k ≤ ([{ url := "http://a", text := "alpha" },
        { url := "http://b", text := "beta" }] : List Article).length →
      countOccs (markerChars k) (formattedData [{ url := "http://a", text := "alpha" },
        { url := "http://b", text := "beta" }]).data = 1) :=
  ⟨by decide,
   claim_story_markers_amended
     [{ url := "http://a", text := "alpha" }, { url := "http://b", text := "beta" }]
     (by decide)⟩

/-- Claim C5: for a spreadsheet whose URL column holds the rows `urls`, the
Loader stores exactly that sequence, in row order, in `links`. -/
theorem claim_loader_row_count (env : Env) (s : AgentState)
    (df : String → Option (List String)) (urls : List String)
    (hf : env.files "NewsLinks.xlsx" = some df) (hc : df "URL" = some urls) :
    read_excel_node env s = .ok { s with links := urls } ∧
    ({ s with links := urls } : AgentState).links = urls := by
  constructor
  · simp [read_excel_node, hf, hc]
  · rfl

/-- A concrete spreadsheet for the loader witnesses. -/
def sheetW : String → Option (List String) := fun c =>
  if c = "URL" then some ["https://a.example/1", "https://a.example/2"] else none

/-- A concrete environment whose spreadsheet exists and has a URL column. -/
def envW : Env :=
  { files := fun f => if f = "NewsLinks.xlsx" then some sheetW else none
    fetch := fun _ _ => { success := false, markdown := "" }
    model := fun _ _ _ => .ok "essay"
    getenv := fun _ => none
    send := fun _ _ _ => .error "auth" }

theorem claim_loader_row_count_witness :
    envW.files "NewsLinks.xlsx" = some sheetW ∧
    sheetW "URL" = some ["https://a.example/1", "https://a.example/2"] ∧
    (read_excel_node envW initialState
      = .ok { initialState with links := ["https://a.example/1", "https://a.example/2"] } ∧
    ({ initialState with links := ["https://a.example/1", "https://a.example/2"] }
      : AgentState).links = ["https://a.example/1", "https://a.example/2"]) :=
  ⟨rfl, rfl, claim_loader_row_count envW initialState sheetW _ rfl rfl⟩

/-- Claim C6: a missing spreadsheet or missing URL column aborts the run with
that loader error — independently of the fetcher, model and mail
collaborators, so no later stage runs and nothing is fetched or sent — and a
model-call exception aborts the run with that model error independently of
the mail collaborator, so no email is attempted. -/
theorem claim_fatal_errors_propagate (env : Env) (s0 : AgentState) :
    (env.files "NewsLinks.xlsx" = none →
      ∀ f m snd, runPipeline { env with fetch := f, model := m, send := snd } s0
        = .error (.load .missingFile)) ∧
    (∀ df, env.files "NewsLinks.xlsx" = some df → df "URL" = none →
      ∀ f m snd, runPipeline { env with fetch := f, model := m, send := snd } s0
        = .error (.load .missingColumn)) ∧
    (∀ df urls e, env.files "NewsLinks.xlsx" = some df → df "URL" = some urls →
      env.model modelName temperatureSetting
          (renderPrompt (formattedData (scrapeLinks env.fetch urls))) = .error e →
      ∀ snd, runPipeline { env with send := snd } s0 = .error (.model e)) := by
  refine ⟨?_, ?_, ?_⟩
  · intro h f m snd
    rw [runPipeline_eq_chain]
    simp [liftNode, read_excel_node, h, emailNode]
  · intro df h1 h2 f m snd
    rw [runPipeline_eq_chain]
    simp [liftNode, read_excel_node, h1, h2, emailNode]
  · intro df urls e h1 h2 h3 snd
    rw [runPipeline_eq_chain]
    simp [liftNode, read_excel_node, h1, h2, scrape_links_node, summarize_node, h3, emailNode]

/-- Environment with no spreadsheet at the fixed path. -/
def envMissingFile : Env :=
  { files := fun _ => none
    fetch := fun _ _ => { success := false, markdown := "" }
    model := fun _ _ _ => .ok "essay"
    getenv := fun _ => none
    send := fun _ _ _ => .ok () }

/-- Environment whose spreadsheet lacks the URL column. -/
def envMissingCol : Env :=
  { files := fun f => if f = "NewsLinks.xlsx" then some (fun _ => none) else none
    fetch := fun _ _ => { success := false, markdown := "" }
    model := fun _ _ _ => .ok "essay"
    getenv := fun _ => none
    send := fun _ _ _ => .ok () }

/-- Environment whose model call raises. -/
def envModelBoom : Env :=
  { files := fun f => if f = "NewsLinks.xlsx" then some (fun c => if c = "URL" then some [] else none) else none
    fetch := fun _ _ => { success := false, markdown := "" }
    model := fun _ _ _ => .error "boom"
    getenv := fun _ => none
    send := fun _ _ _ => .ok () }

theorem claim_fatal_errors_propagate_witness :
    envMissingFile.files "NewsLinks.xlsx" = none ∧
    runPipeline envMissingFile initialState = .error (.load .missingFile) ∧
    runPipeline envMissingCol initialState = .error (.load .missingColumn) ∧
    envModelBoom.model modelName temperatureSetting
      (renderPrompt (formattedData (scrapeLinks envModelBoom.fetch []))) = .error "boom" ∧
    runPipeline envModelBoom initialState = .error (.model "boom") :=
  ⟨rfl,
   (claim_fatal_errors_propagate envMissingFile initialState).1 rfl
     envMissingFile.fetch envMissingFile.model envMissingFile.send,
   (claim_fatal_errors_propagate envMissingCol initialState).2.1 (fun _ => none) rfl rfl
     envMissingCol.fetch envMissingCol.model envMissingCol.send,
   rfl,
   (claim_fatal_errors_propagate envModelBoom initialState).2.2
     (fun c => if c = "URL" then some [] else none) [] "boom" rfl rfl rfl
     envModelBoom.send⟩

/-- Claim C7: if the mail session fails (authentication or transmission), the
Dispatcher catches the exception, reports "Failed to send:" with the
underlying error on the console, does not propagate it (its result type has
no error channel and the surrounding run still completes), and returns the
run state unchanged — same links, processed_articles and summary. -/
theorem claim_dispatcher_catches (env : Env) (s : AgentState) (e : String)
    (h : env.send (env.getenv "EMAIL_ADDRESS") (env.getenv "EMAIL_PASSWORD") (mkMsg env s)
      = .error e) :
    send_email_node env s = (s, [mkMsg env s], ["Failed to send: " ++ e]) ∧
    (send_email_node env s).1.links = s.links ∧
    (send_email_node env s).1.processed_articles = s.processed_articles ∧
    (send_email_node env s).1.summary = s.summary ∧
    (∀ att logs, emailNode env (.ok (s, att, logs))
      = .ok (s, att ++ [mkMsg env s], logs ++ ["Failed to send: " ++ e])) := by
  have h1 : send_email_node env s = (s, [mkMsg env s], ["Failed to send: " ++ e]) := by
    simp [send_email_node, h]
  refine ⟨h1, by rw [h1], by rw [h1], by rw [h1], ?_⟩
  intro att logs
  simp [emailNode, h1]

/-- Environment whose mail session always fails to authenticate. -/
def envSendFail : Env :=
  { files := fun _ => none
    fetch := fun _ _ => { success := false, markdown := "" }
    model := fun _ _ _ => .ok "essay"
    getenv := fun v => if v = "EMAIL_PASSWORD" then none else some "who@example.com"
    send := fun _ _ _ => .error "password missing" }

theorem claim_dispatcher_catches_witness :
    envSendFail.send (envSendFail.getenv "EMAIL_ADDRESS") (envSendFail.getenv "EMAIL_PASSWORD")
      (mkMsg envSendFail { links := ["u"], processed_articles := [], summary := "essay" })
      = .error "password missing" ∧
    send_email_node envSendFail { links := ["u"], processed_articles := [], summary := "essay" }
      = ({ links := ["u"], processed_articles := [], summary := "essay" },
         [mkMsg envSendFail { links := ["u"], processed_articles := [], summary := "essay" }],
         ["Failed to send: " ++ "password missing"]) :=
  ⟨rfl,
   (claim_dispatcher_catches envSendFail
     { links := ["u"], processed_articles := [], summary := "essay" }
     "password missing" rfl).1⟩

/-- Claim C8: when every fetch fails, `processed_articles` is empty, the
Summarizer is still invoked — with the empty content block substituted into
the fixed prompt template — and the Dispatcher still attempts to send the
resulting summary (the run completes with exactly one send attempt carrying
the model's response as body). -/
theorem claim_empty_articles_still_summarized (env : Env) (s0 : AgentState)
    (df : String → Option (List String)) (urls : List String) (resp : String)
    (hf : env.files "NewsLinks.xlsx" = some df) (hc : df "URL" = some urls)
    (hfail : ∀ u ∈ urls, (env.fetch u scrapeConfig).success = false)
    (hm : env.model modelName temperatureSetting (renderPrompt "") = .ok resp) :
    scrapeLinks env.fetch urls = [] ∧
    formattedData [] = "" ∧
    ∃ logs, runPipeline env s0 =
      .ok ({ links := urls, processed_articles := [], summary := resp },
        [mkMsg env { links := urls, processed_articles := [], summary := resp }], logs) := by
  have hnil : scrapeLinks env.fetch urls = [] := scrapeLinks_nil_of_fail env.fetch urls hfail
  refine ⟨hnil, rfl, ?_⟩
  rw [runPipeline_eq_chain]
  have e1 : liftNode read_excel_node env (.ok (s0, [], []))
      = .ok ({ s0 with links := urls }, [], []) := by
    simp [liftNode, read_excel_node, hf, hc]
  rw [e1]
  have e2 : liftNode scrape_links_node env (.ok ({ s0 with links := urls }, [], []))
      = .ok ({ s0 with links := urls, processed_articles := [] }, [], []) := by
    simp [liftNode, scrape_links_node, hnil]
  rw [e2]
  have e3 : liftNode summarize_node env
      (.ok ({ s0 with links := urls, processed_articles := [] }, [], []))
      = .ok ({ links := urls, processed_articles := [], summary := resp }, [], []) := by
    have hfmt : formattedData ([] : List Article) = "" := rfl
    simp [liftNode, summarize_node, hfmt, hm]
  rw [e3]
  rcases hsend : env.send (env.getenv "EMAIL_ADDRESS") (env.getenv "EMAIL_PASSWORD")
      (mkMsg env { links := urls, processed_articles := [], summary := resp }) with e | u
  · exact ⟨["Failed to send: " ++ e], by simp [emailNode, send_email_node, hsend]⟩
  · exact ⟨["Newsletter sent successfully!"], by simp [emailNode, send_email_node, hsend]⟩

/-- Environment for the C8 witness: one URL whose fetch fails. -/
def envAllFail : Env :=
  { files := fun f => if f = "NewsLinks.xlsx"
      then some (fun c => if c = "URL" then some ["https://x"] else none) else none
    fetch := fun _ _ => { success := false, markdown := "" }
    model := fun _ _ _ => .ok "essay"
    getenv := fun _ => none
    send := fun _ _ _ => .error "auth" }

theorem claim_empty_articles_still_summarized_witness :
    envAllFail.files "NewsLinks.xlsx"
      = some (fun c => if c = "URL" then some ["https://x"] else none) ∧
    (∀ u ∈ (["https://x"] : List String), (envAllFail.fetch u scrapeConfig).success = false) ∧
    envAllFail.model modelName temperatureSetting (renderPrompt "") = .ok "essay" ∧
    (scrapeLinks envAllFail.fetch ["https://x"] = [] ∧
     formattedData [] = "" ∧
     ∃ logs, runPipeline envAllFail initialState =
       .ok ({ links := ["https://x"], processed_articles := [], summary := "essay" },
         [mkMsg envAllFail
           { links := ["https://x"], processed_articles := [], summary := "essay" }], logs)) :=
  ⟨rfl, by decide, rfl,
   claim_empty_articles_still_summarized envAllFail initialState
     (fun c => if c = "URL" then some ["https://x"] else none) ["https://x"] "essay"
     rfl rfl (by decide) rfl⟩

/-- Claim C9: one run traverses the graph's nodes exactly in the order
Loader, Fetcher, Summarizer, Dispatcher — each visited once, no branching,
no repetition — and the traversal is the sequential composition of the four
stage functions over the single run-state record. -/
theorem claim_linear_pipeline :
    visitSeq 8 "__start__" = ["read_excel", "scrape", "summarize", "email"] ∧
    (["read_excel", "scrape", "summarize", "email"] : List String).Nodup ∧
    ∀ env s0, runPipeline env s0 =
      emailNode env (liftNode summarize_node env (liftNode scrape_links_node env
        (liftNode read_excel_node env (.ok (s0, [], []))))) :=
  ⟨by decide, by decide, fun env s0 => runPipeline_eq_chain env s0⟩

end NewsSummarizer
